import Mathlib

/-!
Verification of the CxList container from
src/include/core/common/CxList.h (namespace cat).

The C++ class keeps

  * a reference array mp_raw of m_capacity cells, each cell holding a
    pointer to one element slot;
  * mp_list, a pointer into that array (the live window starts there and
    spans m_size cells);
  * a chain of CxListStore blocks that own the element slots themselves
    (slots are created by growth and never move).

We embed this shallowly.  Slots are numbered by Nat ids; a reference cell
holds a slot id.  The reference array is a total function together with
its allocated length (m_capacity, since mem::resize always re-sizes the
array to the new capacity), and the slot storage is a total function
together with the number of slots allocated so far across the block
chain.  Every memory access of the C++ code becomes a bounds-checked
access here; an access outside the allocated ranges is undefined
behaviour in the source and is modelled by Option.none.

The memory primitives mem::alloc / mem::resize / mem::copy come from
CxMem.h, which is not part of the sources; the specification (section 1)
treats them as external capabilities (allocate / resize / bulk-copy), and
they are modelled accordingly: resize keeps the old cells and extends the
array, bulk-copy copies n cells with snapshot (memmove) semantics.

CxI32 values that are indices or sizes are modelled as Int where the code
can receive them from the caller and as Nat where the code guarantees
non-negativity.  The element type is left generic (the claims are
instantiated at T = Int, matching a CxList of integers).
-/

/-- The state of a cat::CxList object.  Field correspondence:
`raw` and `cap` model mp_raw (contents and allocated cell count,
mem::resize keeps them in lockstep with m_capacity), `start` models the
offset mp_list - mp_raw, `size` models m_size, `heap` and `heapLen`
model the element slots owned by the CxListStore chain, and
`invalidValue` models m_invalidValue. -/
structure CxList (T : Type) where
  raw : Nat → Nat
  start : Int
  size : Nat
  heap : Nat → T
  heapLen : Nat
  cap : Nat
  invalidValue : T

namespace CxList

variable {T : Type}

/-- Read the reference cell mp_raw[i]; reading outside the allocated
range [0, m_capacity) is undefined behaviour (none). -/
def rawGet (s : CxList T) (i : Int) : Option Nat :=
  if 0 ≤ i ∧ i < (s.cap : Int) then some (s.raw i.toNat) else none

/-- Write the reference cell mp_raw[i]; writing outside the allocated
range is undefined behaviour (none). -/
def rawSet (s : CxList T) (i : Int) (p : Nat) : Option (CxList T) :=
  if 0 ≤ i ∧ i < (s.cap : Int) then
    some { s with raw := fun j => if (j : Int) = i then p else s.raw j }
  else none

/-- mem::copy on reference cells (the spec's external bulk-copy
capability): copy n cells from offset src to offset dst, with snapshot
semantics.  Any cell outside the allocated range, or a negative count,
is undefined behaviour (none). -/
def rawCopy (s : CxList T) (dst src n : Int) : Option (CxList T) :=
  if 0 ≤ n ∧ 0 ≤ dst ∧ 0 ≤ src ∧ dst + n ≤ (s.cap : Int) ∧ src + n ≤ (s.cap : Int) then
    some { s with raw := fun j =>
            if dst ≤ (j : Int) ∧ (j : Int) < dst + n then s.raw ((j : Int) - dst + src).toNat
            else s.raw j }
  else none

/-- Read the element slot with id p (dereference a stored pointer);
ids ≥ heapLen denote memory that no CxListStore owns (none). -/
def heapGet (s : CxList T) (p : Nat) : Option T :=
  if p < s.heapLen then some (s.heap p) else none

/-- Overwrite the element slot with id p in place. -/
def heapSet (s : CxList T) (p : Nat) (v : T) : Option (CxList T) :=
  if p < s.heapLen then
    some { s with heap := fun q => if q = p then v else s.heap q }
  else none

/-- The value observed at list position i, i.e. *(mp_list[i]). -/
def cell (s : CxList T) (i : Nat) : Option T :=
  (s.rawGet (s.start + (i : Int))).bind s.heapGet

/-- The observable element sequence of the live window
(*(mp_list[0]) .. *(mp_list[m_size-1])). -/
def toSeq (s : CxList T) : List (Option T) :=
  (List.range s.size).map s.cell

/-- CxList::CxList() (CxList.h:522-525): the default constructor runs
initialise(0), i.e. resize(0), which allocates nothing; everything is
null/zero. -/
def empty [Inhabited T] : CxList T :=
  { raw := fun _ => 0
    start := 0
    size := 0
    heap := fun _ => default
    heapLen := 0
    cap := 0
    invalidValue := default }

/-- CxList::CxList(T*, CxI32, CxCopy) (CxList.h:540-563): the list adopts
(kCxNoCopy) or copies (kCxCopy) the given array into its first
CxListStore and points cell i at slot i; either way the observable state
is: capacity = size = n, window at offset 0, slot i holding the i-th
array element. -/
def fromArray [Inhabited T] (l : List T) : CxList T :=
  { raw := fun i => i
    start := 0
    size := l.length
    heap := fun i => l.getD i default
    heapLen := l.length
    cap := l.length
    invalidValue := default }

/-- CxList::resizeToCapacity (CxList.h:1051-1075): keep the window
offset, mem::resize the reference array to in_capacity cells, append one
new CxListStore of cap_diff = in_capacity - m_capacity default-initialised
slots to the chain, point the cells [m_capacity, m_capacity + cap_diff)
at those new slots, and set m_capacity = in_capacity. -/
def resizeToCapacity [Inhabited T] (s : CxList T) (inCap : Nat) : CxList T :=
  let capDiff := inCap - s.cap
  { s with
    raw := fun j => if s.cap ≤ j ∧ j < s.cap + capDiff then s.heapLen + (j - s.cap) else s.raw j
    heap := fun q => if q < s.heapLen then s.heap q else default
    heapLen := s.heapLen + capDiff
    cap := inCap }

/-- CxList::append(const T&) (CxList.h:657-666): if m_size == m_capacity,
resizeToCapacity(m_capacity*2); then *(mp_list[m_size++]) = in_elem. -/
def append [Inhabited T] (s0 : CxList T) (v : T) : Option (CxList T) := do
  let s := if s0.size = s0.cap then s0.resizeToCapacity (s0.cap * 2) else s0
  let p ← s.rawGet (s.start + (s.size : Int))
  let s1 ← s.heapSet p v
  pure { s1 with size := s1.size + 1 }

/-- CxList::removeFirst (CxList.h:866-876): if m_size > 0 then
++mp_list; --m_size; otherwise only a debug warning. -/
def removeFirst (s : CxList T) : CxList T :=
  if 0 < s.size then { s with start := s.start + 1, size := s.size - 1 } else s

/-- CxList::removeLast (CxList.h:878-886): if m_size > 0 then --m_size;
otherwise only a debug warning. -/
def removeLast (s : CxList T) : CxList T :=
  if 0 < s.size then { s with size := s.size - 1 } else s

/-- CxList::replaceAt (CxList.h:913-920): in range, overwrite
*(mp_list[in_idx]) in place and return true; out of range, return false
and change nothing. -/
def replaceAt (s : CxList T) (idx : Int) (v : T) : Option (Bool × CxList T) :=
  if 0 ≤ idx ∧ idx < (s.size : Int) then do
    let p ← s.rawGet (s.start + idx)
    let s1 ← s.heapSet p v
    pure (true, s1)
  else pure (false, s)

/-- CxList::insert(CxI32, const T&) (CxList.h:775-811).  If
m_size == m_capacity, resizeToCapacity(m_capacity*2).  Then either the
first in_idx cells are moved down one cell (mv_down branch, recycling the
pointer from mp_list[-1]) or the last m_size - in_idx cells are moved up
one cell (mv_up branch, recycling the pointer from mp_list[m_size]); the
branch condition, the guarded copies, the conditional mp_list--, the
write mp_list[in_idx] = ptr and *ptr = in_elem follow the source lines
784-810 exactly (m_size >> 1 is division by two, m_size being
non-negative). -/
def insert [Inhabited T] (s0 : CxList T) (idx : Int) (v : T) : Option (CxList T) := do
  let s := if s0.size = s0.cap then s0.resizeToCapacity (s0.cap * 2) else s0
  let so : Int := s.start
  let sz : Int := (s.size : Int)
  let goDown : Bool := decide ((idx ≤ ((s.size / 2 : Nat) : Int) ∧ so ≠ 0) ∨ ((s.cap : Int) ≤ so + sz))
  let mvDown : Int := if goDown then idx else 0
  let mvUp : Int := if goDown then 0 else sz - idx
  let ptr ← if goDown then s.rawGet (so - 1) else s.rawGet (so + sz)
  let s1 ← if mvDown ≠ 0 then s.rawCopy (so - 1) so mvDown
           else if mvUp ≠ 0 then s.rawCopy (so + idx + 1) (so + idx) mvUp
           else pure s
  let s2 := if mvDown ≠ 0 ∨ (idx = 0 ∧ mvUp = 0) then { s1 with start := s1.start - 1 } else s1
  let s3 ← s2.rawSet (s2.start + idx) ptr
  let s4 ← s3.heapSet ptr v
  pure { s4 with size := s4.size + 1 }

/-- CxList::priv_removeAt (CxList.h:1077-1099).  All call sites guard
0 <= in_idx < m_size, so the index is a Nat here.  The source saves
ptr = mp_list[in_idx]; if in_idx <= (in_idx >> 1) (note: the source
compares against in_idx >> 1, not m_size >> 1, so this branch is taken
only for in_idx == 0) it copies in_idx cells up when in_idx != 0 and does
mp_list++; otherwise, when in_idx != m_size - 1, it copies
m_size - in_idx cells (note: one more than the gap needs) down and parks
ptr at mp_list[m_size - 1]; finally --m_size. -/
def priv_removeAt (s : CxList T) (idx : Nat) : Option (CxList T) := do
  let ptr ← s.rawGet (s.start + (idx : Int))
  let s2 ←
    if idx ≤ idx / 2 then do
      let s1 ← if idx ≠ 0 then do
                  let t ← s.rawCopy (s.start + 1) s.start (idx : Int)
                  t.rawSet t.start ptr
               else pure s
      pure { s1 with start := s1.start + 1 }
    else
      if idx ≠ s.size - 1 then do
        let t ← s.rawCopy (s.start + (idx : Int)) (s.start + (idx : Int) + 1) ((s.size : Int) - (idx : Int))
        t.rawSet (t.start + (s.size : Int) - 1) ptr
      else pure s
  pure { s2 with size := s2.size - 1 }

/-- CxList::removeAt (CxList.h:853-864): in range, priv_removeAt; out of
range, a warning and return false.  The in-range path of the source has
no return statement (control falls off the end of the CxBool function),
so the returned boolean is undefined there; we model the returned value
as Option Bool with none for that path. -/
def removeAt (s : CxList T) (idx : Int) : Option (Option Bool × CxList T) :=
  if 0 ≤ idx ∧ idx < (s.size : Int) then
    (s.priv_removeAt idx.toNat).map fun s1 => (none, s1)
  else some (some false, s)

/-- CxList::set (CxList.h:938-950): if in_idx >= m_size, first
resizeToCapacity(in_idx*2) when in_idx >= m_capacity, then
m_size = in_idx + 1; finally *(mp_list[in_idx]) = in_value (the source
writes mp_vec, the class's only pointer array being mp_list). -/
def set [Inhabited T] (s : CxList T) (idx : Int) (v : T) : Option (CxList T) := do
  let s1 :=
    if (s.size : Int) ≤ idx then
      let t := if (s.cap : Int) ≤ idx then s.resizeToCapacity (idx.toNat * 2) else s
      { t with size := (idx + 1).toNat }
    else s
  let p ← s1.rawGet (s1.start + idx)
  s1.heapSet p v

/-- CxList::count(const T&) (CxList.h:723-730), for a list of CxI32
elements (the only element type for which the comparison in the source
typechecks): nm_occurances starts at 0 and the loop over the live window
increments it whenever *(mp_list[i]) == nm_occurances — the comparison in
the source is against the counter itself, the parameter in_value is never
used. -/
def count (s : CxList Int) (inValue : Int) : Option Int :=
  List.foldlM
    (fun nmOccurances i =>
      (s.cell i).map fun x => if x = nmOccurances then nmOccurances + 1 else nmOccurances)
    0 (List.range s.size)

/-- The loop of CxList::replaceAll (CxList.h:898-911): while i < m_size,
if *(mp_list[i]) == in_old then overwrite the slot with in_new and
++count — without advancing i — else ++i.  The loop is given fuel; none
means the run did not finish within the given fuel (in particular, a
non-terminating run yields none for every fuel). -/
def replaceAllLoop [DecidableEq T] (old nw : T) :
    Nat → CxList T → Int → Nat → Option (Nat × CxList T)
  | 0, _, _, _ => none
  | fuel + 1, s, i, cnt =>
    if i < (s.size : Int) then
      (s.rawGet (s.start + i)).bind fun p =>
      (s.heapGet p).bind fun x =>
      if x = old then
        (s.heapSet p nw).bind fun s1 => replaceAllLoop old nw fuel s1 i (cnt + 1)
      else replaceAllLoop old nw fuel s (i + 1) cnt
    else some (cnt, s)

/-- CxList::replaceAll (CxList.h:898-911): run the loop from i = 0,
count = 0 and return the count (with the final state). -/
def replaceAll [DecidableEq T] (s : CxList T) (old nw : T) (fuel : Nat) :
    Option (Nat × CxList T) :=
  replaceAllLoop old nw fuel s 0 0

/-- Collect a list of optional reads, failing if any read failed. -/
def seqOpt {α : Type} : List (Option α) → Option (List α)
  | [] => some []
  | o :: t => o.bind fun x => (seqOpt t).map (fun r => x :: r)

/-- CxList::operator+ (CxList.h:626-644): if the combined size is
positive, allocate a fresh array, copy this list's live elements followed
by the other's into it, and wrap it as CxList(ret, ret_size, kCxNoCopy);
otherwise return the default-constructed empty list. -/
def add [Inhabited T] (a b : CxList T) : Option (CxList T) :=
  if 0 < a.size + b.size then do
    let xs ← seqOpt a.toSeq
    let ys ← seqOpt b.toSeq
    pure (fromArray (xs ++ ys))
  else pure empty

/-- Modelled from the spec: CxList::prepend is declared at CxList.h:338
but has no definition anywhere in the sources, so its body is taken from
the specification (sections 4.2 prepend-slot, 4.3 and 9).  If S == 0
there is no head slack, so grow by the stated policy (double the
capacity, or the exact deficit — here one slot — when doubling is
insufficient, e.g. on an empty list) and relocate the window so the newly
created tail slack becomes usable at the head (the reference cells are
rotated so the live window sits at the high end of the array); then
consume one head-slack cell: mp_list--, write the value through it, and
extend the window. -/
def prependSpec [Inhabited T] (s : CxList T) (v : T) : Option (CxList T) := do
  let s1 :=
    if s.start = 0 then
      let newCap := if s.size + 1 ≤ s.cap * 2 then s.cap * 2 else s.size + 1
      let g := s.resizeToCapacity newCap
      let ns : Int := (g.cap : Int) - (g.size : Int)
      { g with raw := fun j => g.raw (((j : Int) - ns).emod (g.cap : Int)).toNat, start := ns }
    else s
  let p ← s1.rawGet (s1.start - 1)
  let s2 ← s1.heapSet p v
  pure { s2 with start := s2.start - 1, size := s2.size + 1 }

/-- The data-model invariant of section 3 for the embedded state: the
window [S, S+Z) lies inside the reference array of capacity C, every
reference cell points at an allocated slot, and distinct cells point at
distinct slots (the index array holds references to slots, slots are
owned by exactly one cell's pointee position). -/
abbrev wf (s : CxList T) : Prop :=
  0 ≤ s.start ∧ s.start + (s.size : Int) ≤ (s.cap : Int) ∧
  (∀ j, j < s.cap → s.raw j < s.heapLen) ∧
  (∀ j, j < s.cap → ∀ k, k < s.cap → s.raw j = s.raw k → j = k)

theorem seqOpt_eq_some {α : Type} :
    ∀ {l : List (Option α)} {xs : List α}, seqOpt l = some xs → l = xs.map some := by
  intro l
  induction l with
  | nil =>
    intro xs h
    simp only [seqOpt] at h
    cases h
    rfl
  | cons o t ih =>
    intro xs h
    cases o with
    | none => simp [seqOpt] at h
    | some x =>
      simp only [seqOpt, Option.some_bind] at h
      cases ht : seqOpt t with
      | none => rw [ht] at h; simp at h
      | some r =>
        rw [ht] at h
        simp at h
        subst h
        simp [ih ht]

theorem seqOpt_length {α : Type} {l : List (Option α)} {xs : List α}
    (h : seqOpt l = some xs) : xs.length = l.length := by
  rw [seqOpt_eq_some h, List.length_map]

theorem toSeq_length (s : CxList T) : s.toSeq.length = s.size := by
  simp [toSeq]

theorem cell_fromArray [Inhabited T] (l : List T) (i : Nat) (h : i < l.length) :
    (fromArray l : CxList T).cell i = some (l.getD i default) := by
  have h0 : (0 : Int) ≤ (i : Int) := Int.ofNat_nonneg i
  have h1 : (i : Int) < (l.length : Int) := by exact_mod_cast h
  simp [cell, rawGet, heapGet, fromArray, h, h0, h1]

theorem toSeq_fromArray [Inhabited T] (l : List T) :
    (fromArray l : CxList T).toSeq = l.map some := by
  apply List.ext_getElem
  · simp [toSeq, fromArray]
  · intro i h1 h2
    have hi : i < l.length := by simpa [toSeq, fromArray] using h1
    simp only [toSeq, List.getElem_map, List.getElem_range]
    rw [cell_fromArray l i hi, List.getD_eq_getElem]

end CxList

/-- Claim C1: starting from the default-constructed empty list, a
sequence of single-element appends should leave length() == n with
value(i) the i-th appended value.  The code violates this at the very
first append: the growth call resizeToCapacity(m_capacity*2) doubles the
capacity, and doubling 0 yields 0, so no storage is ever allocated and
append then writes through mp_list[0] of the empty (null) reference
array — undefined behaviour, modelled as none. -/
theorem claim_C1_append_growth_from_empty :
    CxList.append (CxList.empty : CxList Int) 1 = none := rfl

/-- Claim C2: insert(idx, v) immediately followed by removeAt(idx)
should restore the previous sequence and length for every 0 ≤ idx ≤
length().  The code violates this on the empty list at idx = 0: insert
takes the shift-down branch (start_offset + m_size >= m_capacity holds,
as 0 >= 0), reads the pointer in the reference cell at offset -1, and
capacity stays 0 after doubling — undefined behaviour, modelled as
none, so the round trip does not restore anything. -/
theorem claim_C2_insert_removeAt_roundtrip :
    (CxList.insert (CxList.empty : CxList Int) 0 7).bind
      (fun s => CxList.removeAt s 0) = none := rfl

/-- Claim C3: count(v) should return the number of live positions whose
element equals v.  The loop in the code compares each element against
the running counter nm_occurances instead of in_value: on the list
[0, 1] it returns 2 for count(7), although no element equals 7. -/
theorem claim_C3_count_counts_counter :
    CxList.count (CxList.fromArray [(0 : Int), 1]) 7 = some 2 ∧
      (CxList.toSeq (CxList.fromArray [(0 : Int), 1])).count (some 7) = 0 := by
  exact ⟨rfl, rfl⟩

/-- Claim C4: on an empty list, prepend(a) then prepend(b) yields the
two-element list [b, a], the most recently prepended value at index 0.
CxList::prepend is declared but not defined in the sources, so this is
proved of the spec-modelled prependSpec (grow per the section 4.2
policy, relocate the window so the new slack is usable at the head, then
consume one head-slack cell). -/
theorem claim_C4_prepend_order :
    ((CxList.prependSpec (CxList.empty : CxList Int) 10).bind
        (fun s => CxList.prependSpec s 20)).map CxList.toSeq
      = some [some 20, some 10] := rfl

/-- Claim C5: removeAt(idx) on a valid index should remove the element
and return true.  The code violates this: on the list [1,2,3] with
idx = 1 the shift-down branch copies m_size - in_idx = 2 pointers, one
more than the gap, reading the reference cell one past the live window —
out of bounds here since the window fills the whole capacity — and in
any case the valid-index path of removeAt has no return statement, so it
never returns true.  Undefined behaviour, modelled as none. -/
theorem claim_C5_removeAt_valid :
    CxList.removeAt (CxList.fromArray [(1 : Int), 2, 3]) 1 = none := rfl

/-- Claim C6: set(idx, v) with idx ≥ length() should grow the list so
that length() == idx+1 and element idx equals v.  The code violates this
at idx = 0 on the default-constructed empty list: the growth call
resizeToCapacity(in_idx*2) asks for capacity 0 * 2 = 0, so nothing is
allocated, and the write through mp_list[0] of the empty (null)
reference array is undefined behaviour, modelled as none. -/
theorem claim_C6_set_grows :
    CxList.set (CxList.empty : CxList Int) 0 7 = none := rfl

theorem replaceAllLoop_stuck {T : Type} [DecidableEq T] (v : T) :
    ∀ (fuel : Nat) (s : CxList T) (i : Int) (cnt : Nat) (p : Nat),
      i < (s.size : Int) → CxList.rawGet s (s.start + i) = some p →
      CxList.heapGet s p = some v →
      CxList.replaceAllLoop v v fuel s i cnt = none := by
  intro fuel
  induction fuel with
  | zero => intro s i cnt p _ _ _; rfl
  | succ n ih =>
    intro s i cnt p hi hr hh
    have hp : p < s.heapLen := by
      by_contra hc
      simp [CxList.heapGet, hc] at hh
    have hset : CxList.heapSet s p v
        = some { s with heap := fun q => if q = p then v else s.heap q } := by
      simp [CxList.heapSet, hp]
    simp only [CxList.replaceAllLoop]
    rw [if_pos hi, hr, Option.some_bind, hh, Option.some_bind, if_pos rfl, hset,
      Option.some_bind]
    exact ih _ i (cnt + 1) p hi hr (by simp [CxList.heapGet, hp])

/-- Claim C7: replaceAll(old, new) should terminate for every pair of
values, including old == new, overwrite the matching slots and return
the match count.  The code violates termination: the loop advances i
only in the no-match case, so when old == new a matching slot keeps
matching after being overwritten and the loop never leaves it.  On the
one-element list [5], replaceAll(5, 5) runs forever: no amount of fuel
produces a result. -/
theorem claim_C7_replaceAll_diverges :
    ∀ fuel : Nat, CxList.replaceAll (CxList.fromArray [(5 : Int)]) 5 5 fuel = none := by
  intro fuel
  exact replaceAllLoop_stuck 5 fuel (CxList.fromArray [(5 : Int)]) 0 0 0
    (by decide) rfl rfl

/-- Claim C8: operator+ builds a list whose length is the sum of the two
lengths and whose element sequence is A's elements followed by B's, the
operands being left untouched (the embedding is functional, the operands
are read only through their live cells). -/
theorem claim_C8_concat (a b c : CxList Int) (h : CxList.add a b = some c) :
    c.size = a.size + b.size ∧ CxList.toSeq c = CxList.toSeq a ++ CxList.toSeq b := by
  unfold CxList.add at h
  by_cases hs : 0 < a.size + b.size
  · rw [if_pos hs] at h
    cases hx : CxList.seqOpt (CxList.toSeq a) with
    | none => rw [hx] at h; simp at h
    | some xs =>
      cases hy : CxList.seqOpt (CxList.toSeq b) with
      | none => rw [hx, hy] at h; simp at h
      | some ys =>
        rw [hx, hy] at h
        simp at h
        subst h
        constructor
        · have la : xs.length = a.size := by
            rw [CxList.seqOpt_length hx, CxList.toSeq_length]
          have lb : ys.length = b.size := by
            rw [CxList.seqOpt_length hy, CxList.toSeq_length]
          show (xs ++ ys).length = a.size + b.size
          rw [List.length_append, la, lb]
        · rw [CxList.toSeq_fromArray, CxList.seqOpt_eq_some hx, CxList.seqOpt_eq_some hy,
            List.map_append]
  · rw [if_neg hs] at h
    have ha : a.size = 0 := by omega
    have hb : b.size = 0 := by omega
    simp at h
    subst h
    constructor
    · simp [CxList.empty, ha, hb]
    · simp [CxList.toSeq, CxList.empty, ha, hb]

/-- Witness for claim C8 at A = [1, 2], B = [3]. -/
theorem claim_C8_concat_witness :
    (CxList.fromArray [(1 : Int), 2, 3]).size
        = (CxList.fromArray [(1 : Int), 2]).size + (CxList.fromArray [(3 : Int)]).size ∧
      CxList.toSeq (CxList.fromArray [(1 : Int), 2, 3])
        = CxList.toSeq (CxList.fromArray [(1 : Int), 2])
            ++ CxList.toSeq (CxList.fromArray [(3 : Int)]) :=
  claim_C8_concat (CxList.fromArray [(1 : Int), 2]) (CxList.fromArray [(3 : Int)])
    (CxList.fromArray [(1 : Int), 2, 3]) rfl

/-- Claim C9: removeFirst() and removeLast() on an empty list are
no-ops: the guard m_size > 0 fails, so nothing is changed (only a debug
warning is emitted) and length() stays 0. -/
theorem claim_C9_remove_on_empty_noop {T : Type} (s : CxList T) (h : s.size = 0) :
    CxList.removeFirst s = s ∧ CxList.removeLast s = s := by
  unfold CxList.removeFirst CxList.removeLast
  rw [h]
  simp

/-- Witness for claim C9 at the default-constructed empty list. -/
theorem claim_C9_remove_on_empty_noop_witness :
    (CxList.empty : CxList Int).size = 0 ∧
      (CxList.removeFirst (CxList.empty : CxList Int) = CxList.empty ∧
        CxList.removeLast (CxList.empty : CxList Int) = CxList.empty) :=
  ⟨rfl, claim_C9_remove_on_empty_noop (CxList.empty : CxList Int) rfl⟩

/-- Claim C10: for a valid index, replaceAt(idx, v) returns true, sets
the element at idx to v, and leaves the length, the capacity and every
other position unchanged.  The hypotheses are the data-model invariant
of section 3 (window inside the reference array, cells pointing at
distinct allocated slots) and the validity of the index. -/
theorem claim_C10_replaceAt_frame (s : CxList Int) (idx : Int) (v : Int)
    (hwf : CxList.wf s) (h0 : 0 ≤ idx) (h1 : idx < (s.size : Int)) :
    ∃ s1, CxList.replaceAt s idx v = some (true, s1) ∧
      s1.size = s.size ∧ s1.cap = s.cap ∧
      CxList.cell s1 idx.toNat = some v ∧
      ∀ j : Nat, (j : Int) ≠ idx → CxList.cell s1 j = CxList.cell s j := by
  obtain ⟨hst, hwin, hslot, hinj⟩ := hwf
  have hb0 : 0 ≤ s.start + idx := by omega
  have hb1 : s.start + idx < (s.cap : Int) := by omega
  set k := (s.start + idx).toNat with hk
  have hkc : ((k : Nat) : Int) = s.start + idx := Int.toNat_of_nonneg hb0
  have hkcap : k < s.cap := by omega
  set p := s.raw k with hpdef
  have hp : p < s.heapLen := hslot k hkcap
  have hrg : CxList.rawGet s (s.start + idx) = some p := by
    rw [CxList.rawGet, if_pos ⟨hb0, hb1⟩]
  have hhs : CxList.heapSet s p v
      = some { s with heap := fun q => if q = p then v else s.heap q } := by
    rw [CxList.heapSet, if_pos hp]
  refine ⟨{ s with heap := fun q => if q = p then v else s.heap q }, ?_, rfl, rfl, ?_, ?_⟩
  · rw [CxList.replaceAt, if_pos ⟨h0, h1⟩]
    simp [hrg, hhs]
  · have hcast : ((idx.toNat : Nat) : Int) = idx := Int.toNat_of_nonneg h0
    show (CxList.rawGet s (s.start + (idx.toNat : Int))).bind
        (CxList.heapGet { s with heap := fun q => if q = p then v else s.heap q }) = some v
    rw [hcast, hrg]
    show CxList.heapGet { s with heap := fun q => if q = p then v else s.heap q } p = some v
    rw [CxList.heapGet]
    simp [hp]
  · intro j hj
    show (CxList.rawGet s (s.start + (j : Int))).bind
        (CxList.heapGet { s with heap := fun q => if q = p then v else s.heap q })
      = (CxList.rawGet s (s.start + (j : Int))).bind (CxList.heapGet s)
    cases hq : CxList.rawGet s (s.start + (j : Int)) with
    | none => rfl
    | some q =>
      rw [CxList.rawGet] at hq
      by_cases hc : 0 ≤ s.start + (j : Int) ∧ s.start + (j : Int) < (s.cap : Int)
      · rw [if_pos hc] at hq
        injection hq with hq
        have hj0 : ((s.start + (j : Int)).toNat : Int) = s.start + (j : Int) :=
          Int.toNat_of_nonneg hc.1
        have hjcap : (s.start + (j : Int)).toNat < s.cap := by omega
        have hne : q ≠ p := by
          intro he
          have heq : s.raw ((s.start + (j : Int)).toNat) = s.raw k := by rw [hq, he, hpdef]
          have := hinj ((s.start + (j : Int)).toNat) hjcap k hkcap heq
          omega
        show CxList.heapGet { s with heap := fun r => if r = p then v else s.heap r } q
            = CxList.heapGet s q
        rw [CxList.heapGet, CxList.heapGet]
        simp [hne]
      · rw [if_neg hc] at hq
        exact absurd hq (by simp)

/-- Witness for claim C10 at the list [1, 2, 3], idx = 1, v = 9. -/
theorem claim_C10_replaceAt_frame_witness :
    CxList.wf (CxList.fromArray [(1 : Int), 2, 3]) ∧ (0 : Int) ≤ 1 ∧
      (1 : Int) < ((CxList.fromArray [(1 : Int), 2, 3]).size : Int) ∧
      (∃ s1, CxList.replaceAt (CxList.fromArray [(1 : Int), 2, 3]) 1 9 = some (true, s1) ∧
        s1.size = (CxList.fromArray [(1 : Int), 2, 3]).size ∧
        s1.cap = (CxList.fromArray [(1 : Int), 2, 3]).cap ∧
        CxList.cell s1 (1 : Int).toNat = some 9 ∧
        ∀ j : Nat, (j : Int) ≠ 1 →
          CxList.cell s1 j = CxList.cell (CxList.fromArray [(1 : Int), 2, 3]) j) :=
  ⟨by decide, by decide, by decide,
    claim_C10_replaceAt_frame (CxList.fromArray [(1 : Int), 2, 3]) 1 9
      (by decide) (by decide) (by decide)⟩
